import Mathlib

/-!
Verification of the hh_it_scrapper ingestion pipeline.

The development embeds the two pipeline variants present in the repository:

* the monolithic variant (`main.go`): namespace `Mono` — `processVacancy`,
  the per-key retry loop of `fetchVacancyDetails`, and the pagination loop
  `fetchAndStoreVacancies`;
* the modular variant (the refactored `main.go` using the `api`, `config`,
  `logger` and `storage` packages): namespace `Modular` — `processVacancy`
  and the per-key retry loop of `fetchAndProcessVacancies`.

Shared parts (the MD5 content hasher, the classified HTTP result taxonomy,
the mutable per-run state consisting of the description-hash set and the
sequence of store upserts) are at top level.  Network calls are modelled by
oracles: a page oracle mapping a page index to the classified outcome of the
search request, and a detail oracle mapping a vacancy id and an attempt
number to the classified outcome of the detail request.  The concurrent
worker pool is modelled two ways: the per-key data path is sequentialised in
dispatch order (the dedup cache is the only shared state), and the
semaphore bound itself is modelled as a separate labelled transition system
(`PoolStep`) over worker phases.  Wall-clock sleeps are counted, not timed.
-/

namespace MD5

/-- The mask for 32-bit words, 2^32 - 1. -/
def mask32 : Nat := 4294967295

/-- Addition modulo 2^32. -/
def add32 (a b : Nat) : Nat := (a + b) % 4294967296

/-- Left rotation of a 32-bit word by `n` bits. -/
def rotl32 (x n : Nat) : Nat :=
  ((x <<< n) ||| (x >>> (32 - n))) &&& mask32

/-- Bitwise complement on 32-bit words. -/
def not32 (x : Nat) : Nat := x ^^^ mask32

/-- Round function for rounds 0-15. -/
def auxF (b c d : Nat) : Nat := (b &&& c) ||| (not32 b &&& d)

/-- Round function for rounds 16-31. -/
def auxG (b c d : Nat) : Nat := (d &&& b) ||| (not32 d &&& c)

/-- Round function for rounds 32-47. -/
def auxH (b c d : Nat) : Nat := b ^^^ c ^^^ d

/-- Round function for rounds 48-63. -/
def auxI (b c d : Nat) : Nat := c ^^^ (b ||| not32 d)

/-- The 64 sine-derived constants of MD5 (RFC 1321 T table). -/
def tTable : List Nat :=
  [0xd76aa478, 0xe8c7b756, 0x242070db, 0xc1bdceee,
   0xf57c0faf, 0x4787c62a, 0xa8304613, 0xfd469501,
   0x698098d8, 0x8b44f7af, 0xffff5bb1, 0x895cd7be,
   0x6b901122, 0xfd987193, 0xa679438e, 0x49b40821,
   0xf61e2562, 0xc040b340, 0x265e5a51, 0xe9b6c7aa,
   0xd62f105d, 0x02441453, 0xd8a1e681, 0xe7d3fbc8,
   0x21e1cde6, 0xc33707d6, 0xf4d50d87, 0x455a14ed,
   0xa9e3e905, 0xfcefa3f8, 0x676f02d9, 0x8d2a4c8a,
   0xfffa3942, 0x8771f681, 0x6d9d6122, 0xfde5380c,
   0xa4beea44, 0x4bdecfa9, 0xf6bb4b60, 0xbebfbc70,
   0x289b7ec6, 0xeaa127fa, 0xd4ef3085, 0x04881d05,
   0xd9d4d039, 0xe6db99e5, 0x1fa27cf8, 0xc4ac5665,
   0xf4292244, 0x432aff97, 0xab9423a7, 0xfc93a039,
   0x655b59c3, 0x8f0ccc92, 0xffeff47d, 0x85845dd1,
   0x6fa87e4f, 0xfe2ce6e0, 0xa3014314, 0x4e0811a1,
   0xf7537e82, 0xbd3af235, 0x2ad7d2bb, 0xeb86d391]

/-- The 64 per-round left-rotation amounts of MD5. -/
def sTable : List Nat :=
  [7, 12, 17, 22, 7, 12, 17, 22, 7, 12, 17, 22, 7, 12, 17, 22,
   5, 9, 14, 20, 5, 9, 14, 20, 5, 9, 14, 20, 5, 9, 14, 20,
   4, 11, 16, 23, 4, 11, 16, 23, 4, 11, 16, 23, 4, 11, 16, 23,
   6, 10, 15, 21, 6, 10, 15, 21, 6, 10, 15, 21, 6, 10, 15, 21]

/-- One MD5 round: `msg` gives the 16 message words of the current block,
`i` is the round index (0-63). -/
def md5Round (msg : Nat → Nat) (st : Nat × Nat × Nat × Nat) (i : Nat) :
    Nat × Nat × Nat × Nat :=
  let (a, b, c, d) := st
  let (f, g) :=
    if i < 16 then (auxF b c d, i)
    else if i < 32 then (auxG b c d, (5 * i + 1) % 16)
    else if i < 48 then (auxH b c d, (3 * i + 5) % 16)
    else (auxI b c d, (7 * i) % 16)
  let f := add32 (add32 (add32 f a) (tTable.getD i 0)) (msg g)
  (d, add32 b (rotl32 f (sTable.getD i 0)), b, c)

/-- Little-endian 32-bit word `j` of a 64-byte block. -/
def blockWord (block : List Nat) (j : Nat) : Nat :=
  block.getD (4 * j) 0 + 256 * block.getD (4 * j + 1) 0 +
    65536 * block.getD (4 * j + 2) 0 + 16777216 * block.getD (4 * j + 3) 0

/-- Process one 64-byte block, updating the four-word state. -/
def processBlock (st : Nat × Nat × Nat × Nat) (block : List Nat) :
    Nat × Nat × Nat × Nat :=
  let (a0, b0, c0, d0) := st
  let (a, b, c, d) := (List.range 64).foldl (md5Round (blockWord block)) st
  (add32 a0 a, add32 b0 b, add32 c0 c, add32 d0 d)

/-- Process `n` consecutive 64-byte blocks taken from `bs`. -/
def processBlocks : Nat → (Nat × Nat × Nat × Nat) → List Nat →
    Nat × Nat × Nat × Nat
  | 0, st, _ => st
  | n + 1, st, bs => processBlocks n (processBlock st (bs.take 64)) (bs.drop 64)

/-- MD5 padding: append `0x80`, zero bytes up to 56 mod 64, then the
64-bit little-endian bit length. -/
def padMessage (bs : List Nat) : List Nat :=
  let len := bs.length
  let zeros := (120 - ((len + 1) % 64)) % 64
  let bitLen := 8 * len
  bs ++ [128] ++ List.replicate zeros 0 ++
    ((List.range 8).map fun k => (bitLen >>> (8 * k)) &&& 255)

/-- UTF-8 encoding of one character (the Go `[]byte(text)` conversion). -/
def utf8Bytes (c : Char) : List Nat :=
  let n := c.toNat
  if n < 128 then [n]
  else if n < 2048 then [192 + n / 64, 128 + n % 64]
  else if n < 65536 then
    [224 + n / 4096, 128 + (n / 64) % 64, 128 + n % 64]
  else
    [240 + n / 262144, 128 + (n / 4096) % 64, 128 + (n / 64) % 64,
     128 + n % 64]

/-- UTF-8 byte sequence of a string. -/
def strBytes (s : String) : List Nat :=
  s.data.foldr (fun c acc => utf8Bytes c ++ acc) []

/-- Lowercase hexadecimal digit. -/
def hexDigit (n : Nat) : Char :=
  if n < 10 then Char.ofNat (48 + n) else Char.ofNat (87 + n)

/-- Two lowercase hex characters of one byte. -/
def byteHex (b : Nat) : List Char := [hexDigit (b / 16), hexDigit (b % 16)]

/-- Little-endian byte serialisation of one 32-bit word. -/
def wordBytes (w : Nat) : List Nat :=
  [(w >>> 0) &&& 255, (w >>> 8) &&& 255, (w >>> 16) &&& 255, (w >>> 24) &&& 255]

/-- The full MD5 digest of a byte sequence, as a lowercase hex string. -/
def md5Bytes (bs : List Nat) : String :=
  let padded := padMessage bs
  let (a, b, c, d) :=
    processBlocks (padded.length / 64)
      (0x67452301, 0xefcdab89, 0x98badcfe, 0x10325476) padded
  ⟨((wordBytes a ++ wordBytes b ++ wordBytes c ++ wordBytes d).map byteHex).flatten⟩

end MD5

/-- The function `md5Hash` from the source: hex-encoded MD5 of the UTF-8 bytes of `text`
(Go `md5.Sum([]byte(text))` followed by `hex.EncodeToString`). -/
def md5Hash (text : String) : String := MD5.md5Bytes (MD5.strBytes text)

/-- Constants from `main.go` / `config.LoadConfig`: worker-pool width. -/
def MaxConcurrency : Nat := 10

/-- Constants from `main.go` / `config.LoadConfig`: retry budget. -/
def MaxRetries : Nat := 3

/-- Constants from `main.go` / `config.LoadConfig`: the fixed delay, in
seconds, slept before each re-attempt (`RetryDelay = 10 * time.Second`). -/
def RetryDelaySeconds : Nat := 10

/-- Constants from `main.go` / `config.LoadConfig`: page size. -/
def PerPage : Nat := 100

/-- The detail payload as the pipeline reads it: the parsed JSON object
(`map[string]interface{}`) projected to the fields the code touches.
`description = some s` models a JSON object whose "description" field is
present with string value `s` (the Go type assertion
`vacancyData["description"].(string)` succeeds); `none` models a field that
is absent or not a string (the assertion fails).  `id` is the payload's
"id" field, used as the upsert filter. -/
structure VacancyData where
  id : String
  description : Option String
  deriving DecidableEq, Repr

/-- Classified outcome of one detail request `GET /vacancies/{id}`,
following the status switch in `processVacancy` / `GetVacancyDetails`:
200 with a body that parses (`ok`), 200 with a malformed body
(`parseFailure`), 404 (`notFound`), 403/429 (`rateLimited`), and transport
failure or any other status (`transient`). -/
inductive DetailResult where
  | ok (data : VacancyData)
  | parseFailure
  | notFound
  | rateLimited
  | transient
  deriving DecidableEq, Repr

/-- One record as upserted into the `vacancies` collection: the payload
plus the injected `description_hash` field. -/
structure StoreRecord where
  id : String
  description : Option String
  description_hash : String
  deriving DecidableEq, Repr

/-- The mutable per-run state shared by workers: the description-hash set
(`existingDescriptionHashes`, a `SafeMap` / `sync.Map`) and the sequence of
store upserts performed so far (in call order).  Store writes are modelled
as always succeeding. -/
structure ProcState where
  hashes : List String
  store : List StoreRecord
  deriving DecidableEq, Repr

namespace Mono

/-- Fine-grained classification of one `processVacancy` call in `main.go`,
refining its Go result (`nil` / `ErrRetryable` / `ErrNonRetryable`) by the
branch that produced it. -/
inductive ProcOutcome where
  | stored
  | skippedDuplicate
  | skippedNotFound
  | skippedInvalid
  | parseFailed
  | retryableErr
  deriving DecidableEq, Repr

/-- The Go error value `processVacancy` returns for each branch. -/
inductive GoErr where
  | ok
  | retryable
  | nonRetryable
  deriving DecidableEq, Repr

/-- Projection of a `ProcOutcome` to the Go error actually returned:
both `stored` and `skippedDuplicate` return `nil`. -/
def ProcOutcome.goErr : ProcOutcome → GoErr
  | .stored => .ok
  | .skippedDuplicate => .ok
  | .skippedNotFound => .nonRetryable
  | .skippedInvalid => .nonRetryable
  | .parseFailed => .nonRetryable
  | .retryableErr => .retryable

/-- One call of `processVacancy` in `main.go`, given the classified
response to its detail request.  On 200: parse; type-assert the
`description` field (absent or non-string → `ErrNonRetryable`); hash it;
skip when the hash is known (returning `nil`); otherwise inject
`description_hash`, upsert keyed by the payload's `id`, and add the hash to
the in-memory set.  On 404 → `ErrNonRetryable`; on 403/429, transport
errors and other statuses → `ErrRetryable`. -/
def processVacancy (resp : DetailResult) (st : ProcState) :
    ProcOutcome × ProcState :=
  match resp with
  | .ok data =>
    match data.description with
    | none => (.skippedInvalid, st)
    | some description =>
      let descriptionHash := md5Hash description
      if descriptionHash ∈ st.hashes then
        (.skippedDuplicate, st)
      else
        (.stored,
         { hashes := descriptionHash :: st.hashes,
           store := st.store ++ [⟨data.id, some description, descriptionHash⟩] })
  | .parseFailure => (.parseFailed, st)
  | .notFound => (.skippedNotFound, st)
  | .rateLimited => (.retryableErr, st)
  | .transient => (.retryableErr, st)

/-- Result of one worker's retry loop: terminal outcome, final shared
state, total number of `processVacancy` attempts, and number of
`RetryDelay` sleeps taken between consecutive attempts. -/
structure WorkerResult where
  outcome : ProcOutcome
  state : ProcState
  attempts : Nat
  sleeps : Nat
  deriving DecidableEq, Repr

/-- The per-key retry loop inside `fetchVacancyDetails` in `main.go`:
attempt `processVacancy`; on `ErrRetryable` with retries left, sleep
`RetryDelay` and re-attempt; on `ErrRetryable` with the budget exhausted,
on `ErrNonRetryable`, or on `nil`, stop.  `responses attempt` is the
classified response to the detail request of the given (0-based) attempt;
`remaining` is `MaxRetries - retries`. -/
def retryLoop (responses : Nat → DetailResult) :
    Nat → Nat → ProcState → WorkerResult
  | attempt, remaining, st =>
    let (out, st') := processVacancy (responses attempt) st
    if out.goErr = .retryable then
      match remaining with
      | 0 => ⟨out, st', attempt + 1, 0⟩
      | r + 1 =>
        let res := retryLoop responses (attempt + 1) r st'
        { res with sleeps := res.sleeps + 1 }
    else ⟨out, st', attempt + 1, 0⟩

/-- The function `fetchVacancyDetails` in `main.go`, sequentialised in dispatch order:
run the retry loop for each id, incrementing `savedCount` exactly when the
final `processVacancy` returned `nil`, and collect the per-key terminal
outcomes.  `responses id attempt` is the classified response to attempt
`attempt` of key `id`.  Returns (final state, savedCount delta, outcomes
in dispatch order). -/
def fetchVacancyDetails (ids : List String)
    (responses : String → Nat → DetailResult) (st : ProcState) :
    ProcState × Nat × List (String × ProcOutcome) :=
  match ids with
  | [] => (st, 0, [])
  | id :: rest =>
    let res := retryLoop (responses id) 0 MaxRetries st
    let inc := if res.outcome.goErr = .ok then 1 else 0
    let (st', n, outs) := fetchVacancyDetails rest responses res.state
    (st', inc + n, (id, res.outcome) :: outs)

end Mono

/-- Classified outcome of one search-page request, following the branches
of the pagination loop in `main.go`: a 200 response whose body reads and
parses (`ok`, carrying the page's item ids and the server-reported `pages`
count, a Go `int`), a non-200 response (`httpError`), or a failure before
any status is available — request construction, `client.Do`, body read, or
JSON parse failure (`transportError`). -/
inductive PageResult where
  | ok (items : List String) (pages : Int)
  | httpError (code : Nat)
  | transportError
  deriving DecidableEq, Repr

namespace Mono

/-- The whole-run state of `fetchAndStoreVacancies` in `main.go`:
`knownIDs` is `existingVacancyIDs` (loaded once at startup; the code never
writes to it afterwards), `proc` bundles the description-hash set and the
store, `savedCount` is the atomic counter behind "Number of successfully
saved vacancies", `outcomes` the per-key terminal outcomes in dispatch
order, `page` and `totalPages` the loop variables (`totalPages` is a Go
`int` whose zero value is 0), and `requested` the page indices for which a
search request was issued, in order. -/
structure RunState where
  knownIDs : List String
  proc : ProcState
  savedCount : Nat
  outcomes : List (String × ProcOutcome)
  page : Nat
  totalPages : Int
  requested : List Nat
  deriving DecidableEq, Repr

/-- One iteration of the pagination loop in `fetchAndStoreVacancies`
(`main.go`).  Issues the search request for the current page.  On success:
record `totalPages` when `page == 0`; filter out ids already in
`existingVacancyIDs`; run the detail workers; then exit when
`page >= totalPages-1`, else advance.  On a non-200 status: same
termination check, then advance.  On a transport/read/parse failure:
advance with no termination check.  Returns the new state and whether the
loop exited. -/
def runStep (pages : Nat → PageResult)
    (details : String → Nat → DetailResult) (s : RunState) :
    RunState × Bool :=
  let s := { s with requested := s.requested ++ [s.page] }
  match pages s.page with
  | .ok items tp =>
    let s := if s.page = 0 then { s with totalPages := tp } else s
    let newIDs := items.filter (fun id => decide (id ∉ s.knownIDs))
    let (st', n, outs) := fetchVacancyDetails newIDs details s.proc
    let s := { s with
        proc := st'
        savedCount := s.savedCount + n
        outcomes := s.outcomes ++ outs }
    if (s.page : Int) ≥ s.totalPages - 1 then (s, true)
    else ({ s with page := s.page + 1 }, false)
  | .httpError _ =>
    if (s.page : Int) ≥ s.totalPages - 1 then (s, true)
    else ({ s with page := s.page + 1 }, false)
  | .transportError => ({ s with page := s.page + 1 }, false)

/-- The pagination loop, with explicit fuel: `none` means the loop was
still running after `fuel` iterations (the Go loop has no fuel and simply
keeps running; termination of `fetchAndStoreVacancies` in the model is
`some` for every sufficiently large fuel). -/
def runLoop (pages : Nat → PageResult)
    (details : String → Nat → DetailResult) :
    Nat → RunState → Option RunState
  | 0, _ => none
  | fuel + 1, s =>
    match runStep pages details s with
    | (s', true) => some s'
    | (s', false) => runLoop pages details fuel s'

/-- The state at entry of `fetchAndStoreVacancies`: loop variables at their
zero values, dedup state as loaded by `loadExistingData`. -/
def initState (knownIDs hashes : List String) : RunState :=
  { knownIDs := knownIDs, proc := { hashes := hashes, store := [] },
    savedCount := 0, outcomes := [], page := 0, totalPages := 0,
    requested := [] }

/-- The function `fetchAndStoreVacancies` in `main.go` (which always returns `nil`;
its observable result is the final run state). -/
def fetchAndStoreVacancies (pages : Nat → PageResult)
    (details : String → Nat → DetailResult) (fuel : Nat)
    (knownIDs hashes : List String) : Option RunState :=
  runLoop pages details fuel (initState knownIDs hashes)

end Mono

namespace Modular

/-- Classification of one `processVacancy` call in the modular variant,
refining its Go result (`nil` or an error) by the branch that produced it.
`GetVacancyDetails` distinguishes only 404 (`ErrVacancyNotFound`, which
`processVacancy` turns into `nil`); every other failure — rate limit,
transport, other statuses, body parse failure — is a generic error, as is
an absent, non-string or empty `description` and a store failure. -/
inductive ModOutcome where
  | stored
  | skippedNotFound
  | skippedDuplicate
  | invalidDescription
  | fetchError
  deriving DecidableEq, Repr

/-- Whether the corresponding Go call returned `nil`. -/
def ModOutcome.isNil : ModOutcome → Bool
  | .stored => true
  | .skippedNotFound => true
  | .skippedDuplicate => true
  | .invalidDescription => false
  | .fetchError => false

/-- One call of the modular `processVacancy`, given the classified response
to its detail request.  404 → log and return `nil`; other fetch failures →
error; `description` absent, non-string or empty → error ("invalid
description"); known hash → `nil` with no write; otherwise inject
`description_hash`, upsert, add the hash, and increment `savedCount`
(returned as the third component). -/
def processVacancy (resp : DetailResult) (st : ProcState) :
    ModOutcome × ProcState × Nat :=
  match resp with
  | .ok data =>
    match data.description with
    | none => (.invalidDescription, st, 0)
    | some description =>
      if description = "" then (.invalidDescription, st, 0)
      else
        let descriptionHash := md5Hash description
        if descriptionHash ∈ st.hashes then
          (.skippedDuplicate, st, 0)
        else
          (.stored,
           { hashes := descriptionHash :: st.hashes,
             store := st.store ++ [⟨data.id, some description, descriptionHash⟩] },
           1)
  | .parseFailure => (.fetchError, st, 0)
  | .notFound => (.skippedNotFound, st, 0)
  | .rateLimited => (.fetchError, st, 0)
  | .transient => (.fetchError, st, 0)

/-- Result of one worker of `fetchAndProcessVacancies`: terminal outcome,
final shared state, `savedCount` delta, attempts made, and sleeps taken. -/
structure ModResult where
  outcome : ModOutcome
  state : ProcState
  saved : Nat
  attempts : Nat
  sleeps : Nat
  deriving DecidableEq, Repr

/-- The per-key loop of `fetchAndProcessVacancies`:
`for retries := 0; retries <= maxRetries; retries++` — return on `nil`;
on any error sleep `retryDelay` and re-attempt while `retries < maxRetries`
(so up to `maxRetries + 1` attempts).  `remaining` is
`maxRetries - retries`. -/
def retryLoop (responses : Nat → DetailResult) :
    Nat → Nat → ProcState → ModResult
  | attempt, remaining, st =>
    let (out, st', inc) := processVacancy (responses attempt) st
    if out.isNil then ⟨out, st', inc, attempt + 1, 0⟩
    else
      match remaining with
      | 0 => ⟨out, st', inc, attempt + 1, 0⟩
      | r + 1 =>
        let res := retryLoop responses (attempt + 1) r st'
        { res with sleeps := res.sleeps + 1 }

/-- The function `fetchAndProcessVacancies` in the modular variant, sequentialised in
dispatch order: run the retry loop for each id and accumulate the
`savedCount` increments performed inside `processVacancy`.  Returns
(final state, savedCount delta, outcomes in dispatch order). -/
def fetchAndProcessVacancies (ids : List String)
    (responses : String → Nat → DetailResult) (st : ProcState) :
    ProcState × Nat × List (String × ModOutcome) :=
  match ids with
  | [] => (st, 0, [])
  | id :: rest =>
    let res := retryLoop (responses id) 0 MaxRetries st
    let (st', n, outs) := fetchAndProcessVacancies rest responses res.state
    (st', res.saved + n, (id, res.outcome) :: outs)

end Modular

/-- Phase of one worker goroutine of the detail-fetch pool: not yet
holding a semaphore slot (`pending`), holding a slot with its detail fetch
in flight (`inFlight`), or released (`finished`). -/
inductive WPhase where
  | pending
  | inFlight
  | finished
  deriving DecidableEq, Repr

/-- Number of workers currently holding a slot, i.e. with a detail fetch
in flight. -/
def inFlightCount : List WPhase → Nat
  | [] => 0
  | .inFlight :: ws => inFlightCount ws + 1
  | _ :: ws => inFlightCount ws

/-- Transitions of the worker pool of `fetchVacancyDetails` /
`fetchAndProcessVacancies`: the semaphore is a buffered channel of
capacity `n` (a Go buffered channel of empty structs), so a pending
worker acquires a slot only when fewer than `n` are held
(the channel send blocks otherwise), and a worker holding a
slot may finish and release it (`<-sem`). -/
inductive PoolStep (n : Nat) : List WPhase → List WPhase → Prop
  | acquire (ws : List WPhase) (i : Nat) (hp : ws.get? i = some .pending)
      (hn : inFlightCount ws < n) : PoolStep n ws (ws.set i .inFlight)
  | release (ws : List WPhase) (i : Nat) (hf : ws.get? i = some .inFlight) :
      PoolStep n ws (ws.set i .finished)

/-- Pool states reachable from the launch of `m` workers (all waiting to
acquire a slot) under pool width `n`. -/
inductive PoolReachable (n m : Nat) : List WPhase → Prop
  | init : PoolReachable n m (List.replicate m .pending)
  | step {ws ws' : List WPhase} : PoolReachable n m ws → PoolStep n ws ws' →
      PoolReachable n m ws'

set_option maxRecDepth 100000

/-! ### Helper lemmas: the worker-pool semaphore bound -/

theorem inFlightCount_replicate_pending (m : Nat) :
    inFlightCount (List.replicate m .pending) = 0 := by
  induction m with
  | zero => rfl
  | succ k ih => simpa [List.replicate, inFlightCount] using ih

theorem inFlightCount_cons (w : WPhase) (ws : List WPhase) :
    inFlightCount (w :: ws) =
      (if w = .inFlight then 1 else 0) + inFlightCount ws := by
  cases w with
  | pending => simp [inFlightCount]
  | inFlight => simp [inFlightCount]; omega
  | finished => simp [inFlightCount]

theorem inFlightCount_set_le (ws : List WPhase) (i : Nat) (v : WPhase) :
    inFlightCount (ws.set i v) ≤ inFlightCount ws + 1 := by
  induction ws generalizing i with
  | nil => simp [List.set]
  | cons w ws ih =>
    cases i with
    | zero =>
      rw [List.set, inFlightCount_cons, inFlightCount_cons]
      split <;> split <;> omega
    | succ j =>
      rw [List.set, inFlightCount_cons, inFlightCount_cons]
      have := ih j
      omega

theorem inFlightCount_set_finished_le (ws : List WPhase) (i : Nat) :
    inFlightCount (ws.set i .finished) ≤ inFlightCount ws := by
  induction ws generalizing i with
  | nil => simp [List.set]
  | cons w ws ih =>
    cases i with
    | zero =>
      rw [List.set]
      cases w <;> simp only [inFlightCount] <;> omega
    | succ j =>
      rw [List.set, inFlightCount_cons, inFlightCount_cons]
      have := ih j
      omega

/-- C9: at every reachable instant of the worker pool, at most `n` workers
hold a semaphore slot, i.e. at most `n` detail fetches are in flight
concurrently; the remaining workers wait (`acquire` is enabled only while
fewer than `n` slots are held).  Instantiated at `n = MaxConcurrency = 10`
by the witness.  The count of launched workers `m` is arbitrary. -/
theorem c9_pool_inflight_bounded (n m : Nat) (ws : List WPhase)
    (h : PoolReachable n m ws) : inFlightCount ws ≤ n := by
  induction h with
  | init => simp [inFlightCount_replicate_pending]
  | @step ws ws' _ hstep ih =>
    cases hstep with
    | acquire i hp hn =>
      have h2 := inFlightCount_set_le ws i .inFlight
      omega
    | release i hf =>
      have h2 := inFlightCount_set_finished_le ws i
      omega

/-- Witness for C9: with pool width `MaxConcurrency` and 30 launched
workers, the bound holds at a concrete reachable state in which one worker
has acquired a slot. -/
theorem c9_pool_inflight_bounded_witness :
    inFlightCount ((List.replicate 30 WPhase.pending).set 0 .inFlight) ≤
      MaxConcurrency :=
  c9_pool_inflight_bounded MaxConcurrency 30 _
    (PoolReachable.step PoolReachable.init
      (PoolStep.acquire _ 0 (by rfl) (by decide)))

/-! ### Claims about the per-key worker (C1, C2, C6, C7, C8) -/

/-- C1 (code bug in the monolithic variant): the count printed as
"Number of successfully saved vacancies" is incremented whenever
`processVacancy` returns `nil`, and the duplicate-skip branch returns
`nil` — so a key whose only outcome is `SkippedDuplicate` (hash already in
the cache, nothing upserted) still increments `savedCount`.  At the
concrete input below (one key, description "d" whose hash is already
known), the monolithic pipeline reports `savedCount = 1` although no
record was stored, while the modular variant — which increments the
counter inside the store branch only — reports `0` for the same input. -/
theorem c1_saved_count_includes_duplicates :
    Mono.fetchVacancyDetails ["5"] (fun _ _ => .ok ⟨"5", some "d"⟩)
        ⟨["8277e0910d750195b448797616e091ad"], []⟩ =
      (⟨["8277e0910d750195b448797616e091ad"], []⟩, 1,
       [("5", .skippedDuplicate)]) ∧
    Modular.fetchAndProcessVacancies ["5"] (fun _ _ => .ok ⟨"5", some "d"⟩)
        ⟨["8277e0910d750195b448797616e091ad"], []⟩ =
      (⟨["8277e0910d750195b448797616e091ad"], []⟩, 0,
       [("5", .skippedDuplicate)]) :=
  ⟨rfl, rfl⟩

/-- C2 counterexample: a payload that parses as JSON and whose
`description` field is present but equal to the empty string is NOT
`SkippedInvalid` in the monolithic variant — the Go type assertion
`vacancyData["description"].(string)` succeeds on `""`, so the empty
description is hashed and the record is stored (here into an empty cache):
the outcome is `stored` and a store write happens, contradicting the
claimed outcome `SkippedInvalid` with nothing written. -/
theorem c2_counterexample :
    Mono.retryLoop (fun _ => .ok ⟨"5", some ""⟩) 0 MaxRetries ⟨[], []⟩ =
      ⟨.stored,
       ⟨["d41d8cd98f00b204e9800998ecf8427e"],
        [⟨"5", some "", "d41d8cd98f00b204e9800998ecf8427e"⟩]⟩, 1, 0⟩ :=
  rfl

/-- C2 amended: in the monolithic variant, only a payload whose
`description` field is absent or not a string is terminal after exactly
one fetch attempt with no retry, no sleep and no store write (the
`ErrNonRetryable` branch); a present-but-empty description is treated as
valid there (see the counterexample).  In the modular variant an absent,
non-string or empty description produces a generic error that IS retried:
`MaxRetries + 1 = 4` attempts are made, with a sleep between consecutive
attempts, before the key is given up — still with no store write. -/
theorem modular_retryLoop_stuck (responses : Nat → DetailResult)
    (out : Modular.ModOutcome) (st : ProcState)
    (h : ∀ n, Modular.processVacancy (responses n) st = (out, st, 0))
    (hnil : out.isNil = false) :
    ∀ remaining attempt, Modular.retryLoop responses attempt remaining st =
      ⟨out, st, 0, attempt + remaining + 1, remaining⟩ := by
  intro remaining
  induction remaining with
  | zero =>
    intro attempt
    rw [Modular.retryLoop, h attempt]
    simp [hnil]
  | succ r ih =>
    intro attempt
    rw [Modular.retryLoop, h attempt]
    simp only [hnil, Bool.false_eq_true, if_false]
    rw [ih (attempt + 1)]
    have harith : attempt + 1 + r + 1 = attempt + (r + 1) + 1 := by omega
    simp [harith]

theorem c2_amended :
    (∀ (data : VacancyData) (responses : Nat → DetailResult) (st : ProcState),
      responses 0 = .ok data → data.description = none →
      Mono.retryLoop responses 0 MaxRetries st =
        ⟨.skippedInvalid, st, 1, 0⟩) ∧
    (∀ (data : VacancyData) (responses : Nat → DetailResult) (st : ProcState),
      (∀ n, responses n = .ok data) →
      (data.description = none ∨ data.description = some "") →
      Modular.retryLoop responses 0 MaxRetries st =
        ⟨.invalidDescription, st, 0, MaxRetries + 1, MaxRetries⟩) := by
  constructor
  · intro data responses st h0 hd
    rw [Mono.retryLoop]
    simp [h0, hd, Mono.processVacancy, Mono.ProcOutcome.goErr]
  · intro data responses st hr hd
    have hinv : ∀ n, Modular.processVacancy (responses n) st =
        (.invalidDescription, st, 0) := by
      intro n
      rw [hr n]
      rcases hd with hd | hd <;> simp [Modular.processVacancy, hd]
    have := modular_retryLoop_stuck responses .invalidDescription st hinv rfl
      MaxRetries 0
    simpa [MaxRetries] using this

/-- Witness for C2's amended theorem at concrete inputs: a payload with an
absent `description` (monolithic side) and a payload with an empty
`description` (modular side). -/
theorem c2_amended_witness :
    Mono.retryLoop (fun _ => .ok ⟨"6", none⟩) 0 MaxRetries ⟨[], []⟩ =
      ⟨.skippedInvalid, ⟨[], []⟩, 1, 0⟩ ∧
    Modular.retryLoop (fun _ => .ok ⟨"6", some ""⟩) 0 MaxRetries ⟨[], []⟩ =
      ⟨.invalidDescription, ⟨[], []⟩, 0, MaxRetries + 1, MaxRetries⟩ :=
  ⟨c2_amended.1 ⟨"6", none⟩ _ _ rfl rfl,
   c2_amended.2 ⟨"6", some ""⟩ _ _ (fun _ => rfl) (Or.inr rfl)⟩

/-- C6: a key whose detail request returns 404 (`NotFound`) is terminal
after exactly one attempt in both variants: outcome `SkippedNotFound`, no
retry (zero sleeps), state unchanged (nothing written), and — in the
modular variant, where the counter is incremented inside `processVacancy`
— no `savedCount` increment. -/
theorem c6_notfound_single_attempt :
    (∀ (responses : Nat → DetailResult) (st : ProcState),
      responses 0 = .notFound →
      Mono.retryLoop responses 0 MaxRetries st =
        ⟨.skippedNotFound, st, 1, 0⟩) ∧
    (∀ (responses : Nat → DetailResult) (st : ProcState),
      responses 0 = .notFound →
      Modular.retryLoop responses 0 MaxRetries st =
        ⟨.skippedNotFound, st, 0, 1, 0⟩) := by
  constructor
  · intro responses st h
    rw [Mono.retryLoop]
    simp [h, Mono.processVacancy, Mono.ProcOutcome.goErr]
  · intro responses st h
    rw [Modular.retryLoop]
    simp [h, Modular.processVacancy, Modular.ModOutcome.isNil]

/-- Witness for C6 at a concrete input. -/
theorem c6_notfound_single_attempt_witness :
    Mono.retryLoop (fun _ => .notFound) 0 MaxRetries ⟨[], []⟩ =
      ⟨.skippedNotFound, ⟨[], []⟩, 1, 0⟩ ∧
    Modular.retryLoop (fun _ => .notFound) 0 MaxRetries ⟨[], []⟩ =
      ⟨.skippedNotFound, ⟨[], []⟩, 0, 1, 0⟩ :=
  ⟨c6_notfound_single_attempt.1 _ _ rfl,
   c6_notfound_single_attempt.2 _ _ rfl⟩

/-- C7: a key whose detail request is `Transient` on the first two
attempts and succeeds on the third (with a fresh, valid description) ends
with outcome `Stored` after exactly 3 attempts, with the fixed
`RetryDelay` sleep taken between consecutive attempts (2 sleeps), in both
variants; the record is upserted once. -/
theorem c7_transient_twice_then_stored :
    (∀ (responses : Nat → DetailResult) (data : VacancyData) (d : String)
       (st : ProcState),
      responses 0 = .transient → responses 1 = .transient →
      responses 2 = .ok data → data.description = some d →
      md5Hash d ∉ st.hashes →
      Mono.retryLoop responses 0 MaxRetries st =
        ⟨.stored,
         ⟨md5Hash d :: st.hashes,
          st.store ++ [⟨data.id, some d, md5Hash d⟩]⟩, 3, 2⟩) ∧
    (∀ (responses : Nat → DetailResult) (data : VacancyData) (d : String)
       (st : ProcState),
      responses 0 = .transient → responses 1 = .transient →
      responses 2 = .ok data → data.description = some d → d ≠ "" →
      md5Hash d ∉ st.hashes →
      Modular.retryLoop responses 0 MaxRetries st =
        ⟨.stored,
         ⟨md5Hash d :: st.hashes,
          st.store ++ [⟨data.id, some d, md5Hash d⟩]⟩, 1, 3, 2⟩) := by
  constructor
  · intro responses data d st h0 h1 h2 hd hmem
    simp [Mono.retryLoop, h0, h1, h2, hd, hmem, Mono.processVacancy,
      Mono.ProcOutcome.goErr, MaxRetries]
  · intro responses data d st h0 h1 h2 hd hne hmem
    simp [Modular.retryLoop, h0, h1, h2, hd, hne, hmem,
      Modular.processVacancy, Modular.ModOutcome.isNil, MaxRetries]

/-- Witness for C7 at a concrete input (description "x"). -/
theorem c7_transient_twice_then_stored_witness :
    Mono.retryLoop
        (fun n => if n < 2 then .transient else .ok ⟨"7", some "x"⟩)
        0 MaxRetries ⟨[], []⟩ =
      ⟨.stored, ⟨[md5Hash "x"], [⟨"7", some "x", md5Hash "x"⟩]⟩, 3, 2⟩ ∧
    Modular.retryLoop
        (fun n => if n < 2 then .transient else .ok ⟨"7", some "x"⟩)
        0 MaxRetries ⟨[], []⟩ =
      ⟨.stored, ⟨[md5Hash "x"], [⟨"7", some "x", md5Hash "x"⟩]⟩, 1, 3, 2⟩ :=
  ⟨c7_transient_twice_then_stored.1 _ ⟨"7", some "x"⟩ "x" ⟨[], []⟩
      rfl rfl rfl rfl (by simp),
   c7_transient_twice_then_stored.2 _ ⟨"7", some "x"⟩ "x" ⟨[], []⟩
      rfl rfl rfl rfl (by simp) (by simp)⟩

/-- C8: two distinct keys whose detail payloads carry identical
`description` text, dispatched into a run whose cache does not yet know
that content: the first-dispatched key is `Stored` with exactly one store
upsert, and the second is `SkippedDuplicate` with no further store write —
in both variants.  The keys `a` and `b` are universally quantified, so the
statement covers either dispatch order (instantiate `(a, b)` or
`(b, a)`); in each order exactly one of the two is stored. -/
theorem c8_identical_description_one_upsert :
    (∀ (a b : String) (responses : String → Nat → DetailResult)
       (da db : VacancyData) (d : String) (st : ProcState),
      a ≠ b →
      responses a 0 = .ok da → responses b 0 = .ok db →
      da.description = some d → db.description = some d →
      md5Hash d ∉ st.hashes →
      Mono.fetchVacancyDetails [a, b] responses st =
        (⟨md5Hash d :: st.hashes, st.store ++ [⟨da.id, some d, md5Hash d⟩]⟩,
         2, [(a, .stored), (b, .skippedDuplicate)])) ∧
    (∀ (a b : String) (responses : String → Nat → DetailResult)
       (da db : VacancyData) (d : String) (st : ProcState),
      a ≠ b →
      responses a 0 = .ok da → responses b 0 = .ok db →
      da.description = some d → db.description = some d → d ≠ "" →
      md5Hash d ∉ st.hashes →
      Modular.fetchAndProcessVacancies [a, b] responses st =
        (⟨md5Hash d :: st.hashes, st.store ++ [⟨da.id, some d, md5Hash d⟩]⟩,
         1, [(a, .stored), (b, .skippedDuplicate)])) := by
  constructor
  · intro a b responses da db d st hab ha hb hda hdb hmem
    have h1 : Mono.retryLoop (responses a) 0 MaxRetries st =
        ⟨.stored, ⟨md5Hash d :: st.hashes,
          st.store ++ [⟨da.id, some d, md5Hash d⟩]⟩, 1, 0⟩ := by
      rw [Mono.retryLoop]
      simp [ha, hda, hmem, Mono.processVacancy, Mono.ProcOutcome.goErr]
    have h2 : Mono.retryLoop (responses b) 0 MaxRetries
        ⟨md5Hash d :: st.hashes, st.store ++ [⟨da.id, some d, md5Hash d⟩]⟩ =
        ⟨.skippedDuplicate, ⟨md5Hash d :: st.hashes,
          st.store ++ [⟨da.id, some d, md5Hash d⟩]⟩, 1, 0⟩ := by
      rw [Mono.retryLoop]
      simp [hb, hdb, Mono.processVacancy, Mono.ProcOutcome.goErr]
    simp [Mono.fetchVacancyDetails, h1, h2, Mono.ProcOutcome.goErr]
  · intro a b responses da db d st hab ha hb hda hdb hne hmem
    have h1 : Modular.retryLoop (responses a) 0 MaxRetries st =
        ⟨.stored, ⟨md5Hash d :: st.hashes,
          st.store ++ [⟨da.id, some d, md5Hash d⟩]⟩, 1, 1, 0⟩ := by
      rw [Modular.retryLoop]
      simp [ha, hda, hne, hmem, Modular.processVacancy,
        Modular.ModOutcome.isNil]
    have h2 : Modular.retryLoop (responses b) 0 MaxRetries
        ⟨md5Hash d :: st.hashes, st.store ++ [⟨da.id, some d, md5Hash d⟩]⟩ =
        ⟨.skippedDuplicate, ⟨md5Hash d :: st.hashes,
          st.store ++ [⟨da.id, some d, md5Hash d⟩]⟩, 0, 1, 0⟩ := by
      rw [Modular.retryLoop]
      simp [hb, hdb, hne, Modular.processVacancy, Modular.ModOutcome.isNil]
    simp [Modular.fetchAndProcessVacancies, h1, h2]

/-- Witness for C8 at concrete inputs, in both dispatch orders: with
description "x" fresh in the cache, the first-dispatched key is stored and
the other is skipped as a duplicate, in both variants. -/
theorem c8_identical_description_one_upsert_witness :
    Mono.fetchVacancyDetails ["4", "8"] (fun _ _ => .ok ⟨"9", some "x"⟩)
        ⟨[], []⟩ =
      (⟨[md5Hash "x"], [⟨"9", some "x", md5Hash "x"⟩]⟩, 2,
       [("4", .stored), ("8", .skippedDuplicate)]) ∧
    Mono.fetchVacancyDetails ["8", "4"] (fun _ _ => .ok ⟨"9", some "x"⟩)
        ⟨[], []⟩ =
      (⟨[md5Hash "x"], [⟨"9", some "x", md5Hash "x"⟩]⟩, 2,
       [("8", .stored), ("4", .skippedDuplicate)]) ∧
    Modular.fetchAndProcessVacancies ["4", "8"]
        (fun _ _ => .ok ⟨"9", some "x"⟩) ⟨[], []⟩ =
      (⟨[md5Hash "x"], [⟨"9", some "x", md5Hash "x"⟩]⟩, 1,
       [("4", .stored), ("8", .skippedDuplicate)]) :=
  ⟨c8_identical_description_one_upsert.1 "4" "8" _ ⟨"9", some "x"⟩
      ⟨"9", some "x"⟩ "x" ⟨[], []⟩ (by decide) rfl rfl rfl rfl (by simp),
   c8_identical_description_one_upsert.1 "8" "4" _ ⟨"9", some "x"⟩
      ⟨"9", some "x"⟩ "x" ⟨[], []⟩ (by decide) rfl rfl rfl rfl (by simp),
   c8_identical_description_one_upsert.2 "4" "8" _ ⟨"9", some "x"⟩
      ⟨"9", some "x"⟩ "x" ⟨[], []⟩ (by decide) rfl rfl rfl rfl (by simp)
      (by simp)⟩

/-! ### Helper lemmas: the pagination loop -/

theorem runLoop_transport_step (pages : Nat → PageResult)
    (details : String → Nat → DetailResult) (s : Mono.RunState) (fuel : Nat)
    (h : pages s.page = .transportError) :
    Mono.runLoop pages details (fuel + 1) s =
      Mono.runLoop pages details fuel
        { s with page := s.page + 1
                 requested := s.requested ++ [s.page] } := by
  rw [Mono.runLoop]
  simp [Mono.runStep, h]

theorem runLoop_all_transport (pages : Nat → PageResult)
    (details : String → Nat → DetailResult)
    (h : ∀ j, pages j = PageResult.transportError) :
    ∀ (fuel : Nat) (s : Mono.RunState),
      Mono.runLoop pages details fuel s = none := by
  intro fuel
  induction fuel with
  | zero => intro s; rfl
  | succ n ih =>
    intro s
    rw [runLoop_transport_step pages details s n (h s.page)]
    exact ih _

theorem runLoop_transport_span (pages : Nat → PageResult)
    (details : String → Nat → DetailResult) :
    ∀ (n : Nat) (s : Mono.RunState) (fuel : Nat),
      (∀ j, j < n → pages (s.page + j) = PageResult.transportError) →
      Mono.runLoop pages details (n + fuel) s =
        Mono.runLoop pages details fuel
          { s with page := s.page + n
                   requested := s.requested ++ List.range' s.page n } := by
  intro n
  induction n with
  | zero =>
    intro s fuel h
    simp
  | succ m ih =>
    intro s fuel h
    have h0 : pages s.page = .transportError := by
      simpa using h 0 (Nat.succ_pos m)
    rw [show m + 1 + fuel = m + fuel + 1 from by omega,
      runLoop_transport_step pages details s (m + fuel) h0]
    rw [ih { s with page := s.page + 1
                    requested := s.requested ++ [s.page] } fuel ?hshift]
    case hshift =>
      intro j hj
      have hx := h (j + 1) (by omega)
      have harr : s.page + (j + 1) = s.page + 1 + j := by omega
      rw [harr] at hx
      exact hx
    show Mono.runLoop pages details fuel
        { s with page := s.page + 1 + m
                 requested := (s.requested ++ [s.page]) ++
                   List.range' (s.page + 1) m } =
      Mono.runLoop pages details fuel
        { s with page := s.page + (m + 1)
                 requested := s.requested ++ List.range' s.page (m + 1) }
    have hpage : s.page + 1 + m = s.page + (m + 1) := by omega
    have hreq : (s.requested ++ [s.page]) ++ List.range' (s.page + 1) m =
        s.requested ++ List.range' s.page (m + 1) := by
      rw [List.range'_succ, List.append_assoc]
      rfl
    rw [hpage, hreq]

theorem runStep_knownIDs (pages : Nat → PageResult)
    (details : String → Nat → DetailResult) (s : Mono.RunState) :
    (Mono.runStep pages details s).1.knownIDs = s.knownIDs := by
  cases hp : pages s.page <;>
    simp [Mono.runStep, hp] <;> split_ifs <;> rfl

theorem runLoop_knownIDs (pages : Nat → PageResult)
    (details : String → Nat → DetailResult) :
    ∀ (fuel : Nat) (s s' : Mono.RunState),
      Mono.runLoop pages details fuel s = some s' →
      s'.knownIDs = s.knownIDs := by
  intro fuel
  induction fuel with
  | zero => intro s s' h; exact absurd h (by simp [Mono.runLoop])
  | succ n ih =>
    intro s s' h
    rw [Mono.runLoop] at h
    have hk := runStep_knownIDs pages details s
    cases hstep : Mono.runStep pages details s with
    | mk s1 done =>
      rw [hstep] at h hk
      cases done with
      | true =>
        simp at h
        rw [← h]
        exact hk
      | false =>
        simp at h
        exact (ih s1 s' h).trans hk

/-! ### Claims about the pagination driver (C3, C4, C5, C10) -/

/-- C3 counterexample: a run in which page 0 fails at the transport level
is not fatal and does not stop issuing page requests: with page 0 a
transport failure and page 1 a success reporting 9 pages, the driver
issues a further request for page 1 (requested = [0, 1]) and the run then
returns normally (`some`, i.e. `fetchAndStoreVacancies` returns `nil` and
the process goes on to print its report) — contradicting "the process
terminates rather than continuing to issue further page requests". -/
theorem c3_counterexample :
    Mono.runLoop (fun n => if n = 0 then .transportError else .ok [] 9)
        (fun _ _ => .notFound) 2 (Mono.initState [] []) =
      some { knownIDs := [], proc := ⟨[], []⟩, savedCount := 0,
             outcomes := [], page := 1, totalPages := 0,
             requested := [0, 1] } := by
  rfl

/-- C3 amended: a failure on page 0 is never fatal.  If every page
request fails at the transport/read/parse level the loop never reaches a
terminal condition at all (it runs forever: `none` for every fuel); if
page 0 fails with a non-200 HTTP status, the termination check
`page >= totalPages - 1` fires immediately on the zero value
`totalPages = 0`, and the run ends normally after that single request —
the process then prints its report and exits successfully rather than
terminating fatally. -/
theorem c3_amended :
    (∀ (pages : Nat → PageResult) (details : String → Nat → DetailResult),
      (∀ j, pages j = PageResult.transportError) →
      ∀ (fuel : Nat) (s : Mono.RunState),
        Mono.runLoop pages details fuel s = none) ∧
    (∀ (pages : Nat → PageResult) (details : String → Nat → DetailResult)
       (code : Nat) (ids hashes : List String) (fuel : Nat),
      pages 0 = .httpError code →
      Mono.runLoop pages details (fuel + 1) (Mono.initState ids hashes) =
        some { Mono.initState ids hashes with requested := [0] }) := by
  constructor
  · intro pages details h fuel s
    exact runLoop_all_transport pages details h fuel s
  · intro pages details code ids hashes fuel h
    rw [Mono.runLoop]
    simp [Mono.runStep, Mono.initState, h]

/-- Witness for C3's amended theorem: all-transport-failure run never
terminates (here at fuel 5), and an HTTP 403 on page 0 ends the run
normally after one request. -/
theorem c3_amended_witness :
    Mono.runLoop (fun _ => PageResult.transportError) (fun _ _ => .notFound)
        5 (Mono.initState [] []) = none ∧
    Mono.runLoop (fun _ => PageResult.httpError 403) (fun _ _ => .notFound)
        1 (Mono.initState [] []) =
      some { Mono.initState [] [] with requested := [0] } :=
  ⟨c3_amended.1 _ _ (fun _ => rfl) 5 _,
   c3_amended.2 _ _ 403 [] [] 0 rfl⟩

/-- C4 counterexample: a key stored on page 0 is NOT filtered out when it
reappears on page 1 of the same run.  Key "7" (fresh description "d") is
stored while processing page 0; `existingVacancyIDs` is never updated, so
when page 1 lists "7" again the pre-filter passes it through
(`knownIDs` of the final state is still `[]`, i.e. `containsKey` is
false), the key is fetched a second time and ends as `skippedDuplicate` —
contradicting "containsKey(k) returns true afterwards and k is filtered
out if it reappears on a later page of the same run". -/
theorem c4_counterexample :
    Mono.runLoop (fun n => if n = 0 then .ok ["7"] 2 else .ok ["7"] 5)
        (fun _ _ => .ok ⟨"7", some "d"⟩) 2 (Mono.initState [] []) =
      some { knownIDs := [],
             proc := ⟨["8277e0910d750195b448797616e091ad"],
                      [⟨"7", some "d", "8277e0910d750195b448797616e091ad"⟩]⟩,
             savedCount := 2,
             outcomes := [("7", .stored), ("7", .skippedDuplicate)],
             page := 1, totalPages := 2, requested := [0, 1] } := by
  rfl

/-- C4 amended: acceptance of a record updates only the fingerprint side
of the dedup state.  (1) The key set is exactly the startup snapshot for
the whole run: every terminating run ends with `knownIDs` equal to the
loaded ids, so a key first stored during the run is never filtered by the
key pre-filter.  (2) After a `stored` outcome the fingerprint is in the
cache, and any later payload carrying the same description text is
`skippedDuplicate` with no further store write — the reappearing key is
re-fetched and then dropped by content, not by key. -/
theorem c4_amended :
    (∀ (pages : Nat → PageResult) (details : String → Nat → DetailResult)
       (fuel : Nat) (ids hashes : List String) (s' : Mono.RunState),
      Mono.runLoop pages details fuel (Mono.initState ids hashes) = some s' →
      s'.knownIDs = ids) ∧
    (∀ (d : String) (data : VacancyData) (st : ProcState),
      data.description = some d → md5Hash d ∉ st.hashes →
      Mono.processVacancy (.ok data) st =
        (.stored, ⟨md5Hash d :: st.hashes,
          st.store ++ [⟨data.id, some d, md5Hash d⟩]⟩) ∧
      ∀ (data' : VacancyData), data'.description = some d →
        Mono.processVacancy (.ok data')
            ⟨md5Hash d :: st.hashes,
             st.store ++ [⟨data.id, some d, md5Hash d⟩]⟩ =
          (.skippedDuplicate,
           ⟨md5Hash d :: st.hashes,
            st.store ++ [⟨data.id, some d, md5Hash d⟩]⟩)) := by
  constructor
  · intro pages details fuel ids hashes s' h
    exact runLoop_knownIDs pages details fuel _ s' h
  · intro d data st hd hmem
    constructor
    · simp [Mono.processVacancy, hd, hmem]
    · intro data' hd'
      simp [Mono.processVacancy, hd']

/-- Witness for C4's amended theorem at concrete inputs: a terminating
run started with known id "z" still knows exactly ["z"] at the end, and
a concrete store/duplicate pair for description "x". -/
theorem c4_amended_witness :
    Mono.RunState.knownIDs
        { Mono.initState ["z"] [] with requested := [0] } = ["z"] ∧
    Mono.processVacancy (.ok ⟨"9", some "x"⟩) ⟨[], []⟩ =
      (.stored, ⟨[md5Hash "x"], [⟨"9", some "x", md5Hash "x"⟩]⟩) ∧
    Mono.processVacancy (.ok ⟨"5", some "x"⟩)
        ⟨[md5Hash "x"], [⟨"9", some "x", md5Hash "x"⟩]⟩ =
      (.skippedDuplicate, ⟨[md5Hash "x"], [⟨"9", some "x", md5Hash "x"⟩]⟩) :=
  ⟨c4_amended.1 (fun _ => PageResult.httpError 500) (fun _ _ => .notFound)
      1 ["z"] [] _ rfl,
   (c4_amended.2 "x" ⟨"9", some "x"⟩ ⟨[], []⟩ rfl (by simp)).1,
   (c4_amended.2 "x" ⟨"9", some "x"⟩ ⟨[], []⟩ rfl (by simp)).2
     ⟨"5", some "x"⟩ rfl⟩

/-- C5 counterexample: a run in which page 0 succeeds and reports
`totalPages = 3` can issue MORE than 3 search requests: if the page-2
request fails at the transport level, the driver advances past it without
the termination check (which only runs after a response with a status),
and issues a 4th request for page 3 — so the requested page indices are
[0, 1, 2, 3], not [0, 1, 2]. -/
theorem c5_counterexample :
    (Mono.runLoop (fun n => if n = 2 then .transportError else .ok [] 3)
        (fun _ _ => .notFound) 9 (Mono.initState [] [])).map
      Mono.RunState.requested = some [0, 1, 2, 3] := by
  rfl

/-- C5 amended: if page 0 succeeds and reports `totalPages = 3`, and the
requests for pages 1 and 2 each obtain an HTTP response (a 200 success or
an error status — anything but a transport/read/parse failure), then the
driver issues exactly 3 search requests, with page indices 0, 1, 2 in that
order, and terminates after processing page 2. -/
theorem c5_amended (pages : Nat → PageResult)
    (details : String → Nat → DetailResult) (ids hashes : List String)
    (items0 : List String) (fuel : Nat)
    (h0 : pages 0 = .ok items0 3)
    (h1 : pages 1 ≠ PageResult.transportError)
    (h2 : pages 2 ≠ PageResult.transportError) :
    (Mono.runLoop pages details (fuel + 3)
        (Mono.initState ids hashes)).map Mono.RunState.requested =
      some [0, 1, 2] := by
  cases hp1 : pages 1 with
  | transportError => exact absurd hp1 h1
  | ok items1 tp1 =>
    cases hp2 : pages 2 with
    | transportError => exact absurd hp2 h2
    | ok items2 tp2 =>
      simp [Mono.runLoop, Mono.runStep, Mono.initState, h0, hp1, hp2]
    | httpError c2 =>
      simp [Mono.runLoop, Mono.runStep, Mono.initState, h0, hp1, hp2]
  | httpError c1 =>
    cases hp2 : pages 2 with
    | transportError => exact absurd hp2 h2
    | ok items2 tp2 =>
      simp [Mono.runLoop, Mono.runStep, Mono.initState, h0, hp1, hp2]
    | httpError c2 =>
      simp [Mono.runLoop, Mono.runStep, Mono.initState, h0, hp1, hp2]

/-- Witness for C5's amended theorem: three empty pages reporting
`totalPages = 3`, at minimal fuel. -/
theorem c5_amended_witness :
    (Mono.runLoop (fun _ => PageResult.ok [] 3) (fun _ _ => .notFound) 3
        (Mono.initState [] [])).map Mono.RunState.requested =
      some [0, 1, 2] :=
  c5_amended (fun _ => PageResult.ok [] 3) (fun _ _ => .notFound) [] [] []
    0 rfl (by simp) (by simp)


theorem runLoop_first_success_stops (pages : Nat → PageResult)
    (details : String → Nat → DetailResult) (s : Mono.RunState)
    (items : List String) (tp : Int) (fuel : Nat)
    (hok : pages s.page = .ok items tp)
    (hne : ¬ s.page = 0) (htp : s.totalPages = 0) :
    ((Mono.runLoop pages details (fuel + 1) s).map Mono.RunState.requested =
      some (s.requested ++ [s.page])) ∧
    ((Mono.runLoop pages details (fuel + 1) s).map Mono.RunState.totalPages =
      some 0) ∧
    ((Mono.runLoop pages details (fuel + 1) s).map Mono.RunState.page =
      some s.page) := by
  rw [Mono.runLoop]
  have hc1 : s.totalPages ≤ (s.page : Int) + 1 := by rw [htp]; omega
  have hc2 : (s.page : Int) ≥ s.totalPages - 1 := by rw [htp]; omega
  have hc3 : (-1 : Int) ≤ (s.page : Int) := by omega
  have hc4 : (0 : Int) ≤ (s.page : Int) + 1 := by omega
  simp [Mono.runStep, hok, hne, htp, hc1, hc2, hc3, hc4]

/-- C10: if every page before `k` (with `k ≥ 1`) fails at the transport
level — in particular page 0, so `totalPages` keeps its zero value 0 —
and page `k` is the first page to succeed, then the termination check
`page >= totalPages - 1` holds immediately (`k ≥ -1`) and the run ends
right after processing page `k`: exactly the pages 0, ..., k were
requested (every page beyond `k` is left unfetched), the final
`totalPages` is still 0 (it is assigned only in the success branch guarded
by `page == 0`), and the final page index is `k`. -/
theorem c10_zero_totalPages_stops_after_first_success
    (pages : Nat → PageResult) (details : String → Nat → DetailResult)
    (ids hashes : List String) (k : Nat) (items : List String) (tp : Int)
    (hk : 1 ≤ k)
    (hfail : ∀ j, j < k → pages j = PageResult.transportError)
    (hok : pages k = .ok items tp) (fuel : Nat) :
    ((Mono.runLoop pages details (k + (fuel + 1))
        (Mono.initState ids hashes)).map Mono.RunState.requested =
      some (List.range (k + 1))) ∧
    ((Mono.runLoop pages details (k + (fuel + 1))
        (Mono.initState ids hashes)).map Mono.RunState.totalPages =
      some 0) ∧
    ((Mono.runLoop pages details (k + (fuel + 1))
        (Mono.initState ids hashes)).map Mono.RunState.page = some k) := by
  have hpre := runLoop_transport_span pages details k
      (Mono.initState ids hashes) (fuel + 1) ?hyp
  case hyp =>
    intro j hj
    have hf := hfail j hj
    simpa [Mono.initState] using hf
  have hS : Mono.runLoop pages details (k + (fuel + 1))
      (Mono.initState ids hashes) =
      Mono.runLoop pages details (fuel + 1)
        { knownIDs := ids, proc := ⟨hashes, []⟩, savedCount := 0,
          outcomes := [], page := k, totalPages := 0,
          requested := List.range' 0 k } := by
    rw [hpre]
    congr 1
    simp [Mono.initState]
  rw [hS] at *
  have hmain := runLoop_first_success_stops pages details
      { knownIDs := ids, proc := ⟨hashes, []⟩, savedCount := 0,
        outcomes := [], page := k, totalPages := 0,
        requested := List.range' 0 k } items tp fuel hok
      (show ¬ k = 0 by omega) rfl
  refine ⟨?_, hmain.2.1, hmain.2.2⟩
  rw [hmain.1]
  simp [List.range_succ, List.range_eq_range']

/-- Witness for C10 at k = 1: page 0 is a transport failure, page 1
succeeds reporting 7 pages; the run requests exactly pages 0 and 1,
ends with `totalPages` still 0, and stops at page 1. -/
theorem c10_zero_totalPages_stops_after_first_success_witness :
    ((Mono.runLoop
        (fun n => if n = 0 then PageResult.transportError else .ok [] 7)
        (fun _ _ => DetailResult.notFound) 2 (Mono.initState [] [])).map
      Mono.RunState.requested = some (List.range 2)) ∧
    ((Mono.runLoop
        (fun n => if n = 0 then PageResult.transportError else .ok [] 7)
        (fun _ _ => DetailResult.notFound) 2 (Mono.initState [] [])).map
      Mono.RunState.totalPages = some 0) ∧
    ((Mono.runLoop
        (fun n => if n = 0 then PageResult.transportError else .ok [] 7)
        (fun _ _ => DetailResult.notFound) 2 (Mono.initState [] [])).map
      Mono.RunState.page = some 1) :=
  c10_zero_totalPages_stops_after_first_success
    (fun n => if n = 0 then PageResult.transportError else .ok [] 7)
    (fun _ _ => DetailResult.notFound) [] [] 1 [] 7 (le_refl 1)
    (by
      intro j hj
      have hj0 : j = 0 := by omega
      subst hj0
      rfl)
    rfl 0
